import Mathlib

/-!
Verification of the icmpkg ICMP ping/traceroute library core.

The definitions below are a shallow embedding of the Go sources
(proto.go, packet.go, traceroute.go) together with the parts of the
golang.org/x/net/icmp wire codec that the library calls.  Machine
integers are modelled as `Int`/`Nat` with explicit `% 2 ^ w` where the
code truncates; Go panics are modelled with `Except GoPanic`; the wall
clock, the resolver and the network are explicit parameters.
-/

namespace Icmpkg

/-- Go panics that the embedded code can raise: slicing past the end of
a slice, a failed single-form type assertion, a nil pointer field
access, and the explicit `panic` in `packet.listen`. -/
inductive GoPanic where
  | sliceOutOfRange
  | typeAssertEcho
  | nilPointerDeref
  | listenPanic
deriving DecidableEq, Repr

/-- Model of `Proto` (proto.go).  `Addr` is modelled as `Option String`
(`none` is a nil `net.Addr`, `some s` an `*net.IPAddr` whose `String()`
is `s`); `Rtt` is a `time.Duration` in nanoseconds. -/
structure Proto where
  ttl : Int
  id : Int
  seq : Int
  addr : Option String
  ip4 : String
  rtt : Int
deriving DecidableEq, Repr

/-- Model of `pingProto` (proto.go): an Echo Request descriptor, `Rtt` zero. -/
def pingProto (ttl id seq : Int) (addr : Option String) (ip4 : String) : Proto :=
  { ttl := ttl, id := id, seq := seq, addr := addr, ip4 := ip4, rtt := 0 }

/-- Model of `pongProto` (proto.go): a reply observation carrying an rtt. -/
def pongProto (ttl id seq : Int) (addr : Option String) (ip4 : String) (rtt : Int) : Proto :=
  { ttl := ttl, id := id, seq := seq, addr := addr, ip4 := ip4, rtt := rtt }

/-- Model of `timeoutProto` (proto.go): a synthetic timeout observation,
`Addr` nil, `Ip4` empty, `Rtt` zero. -/
def timeoutProto (ttl id seq : Int) : Proto :=
  { ttl := ttl, id := id, seq := seq, addr := none, ip4 := "", rtt := 0 }

/-- Model of `aip4` (traceroute.go): nil address (and a nil `*net.IPAddr`
inside the interface) give the empty string, otherwise `IPAddr.String()`. -/
def aip4 (a : Option String) : String :=
  match a with
  | none => ""
  | some s => s

/-- Model of `ttlOpt` (packet.go): TTL at send plus the Unix-millisecond
send timestamp. -/
structure TtlOpt where
  ttl : Int
  unix : Int
deriving DecidableEq, Repr

/-- The correlation table `packet.m : map[string]ttlOpt`, as an
association list with unique keys. -/
abbrev TtlMap := List (String × TtlOpt)

/-- The map key `fmt.Sprintf("%d-%d", id, seq)` used by `setTTL`/`getTTL`. -/
def ttlKey (id seq : Int) : String :=
  toString id ++ "-" ++ toString seq

/-- Model of `packet.setTTL` (packet.go 250-256): store `(ttl, now)`
under key `id-seq` (Go map assignment replaces an existing entry).
The timestamp `now` is the `time.Now().UnixMilli()` oracle. -/
def setTTL (m : TtlMap) (ttl id seq now : Int) : TtlMap :=
  (ttlKey id seq, { ttl := ttl, unix := now }) :: m.filter (fun e => e.1 != ttlKey id seq)

/-- Model of `packet.getTTL` (packet.go 258-274): look the key up; if
absent return zeros and leave the table unchanged; if present delete the
entry, compute `ms := now - sent` (forced to 1 when exactly 0) and
return the recorded TTL with `time.Duration(ms) * time.Millisecond`
(nanoseconds).  Returns `((ttl, rtt), table)`. -/
def getTTL (m : TtlMap) (ecId ecSeq now : Int) : (Int × Int) × TtlMap :=
  match m.lookup (ttlKey ecId ecSeq) with
  | none => ((0, 0), m)
  | some opt =>
    let m2 := m.filter (fun e => e.1 != ttlKey ecId ecSeq)
    let ms := now - opt.unix
    let ms2 := if ms = 0 then 1 else ms
    ((opt.ttl, ms2 * 1000000), m2)

/-! Wire codec (golang.org/x/net/icmp, as called by `Proto.buf` and
`startRead`/`messageRead`). -/

/-- The pairwise byte sum inside the x/net `checksum` helper: bytes are
summed two at a time as `b[i+1]<<8 | b[i]`, a trailing odd byte alone. -/
def csumPairs : List Nat → Nat
  | [] => 0
  | [b] => b
  | b0 :: b1 :: rest => b1 * 256 + b0 + csumPairs rest

/-- Model of the x/net ICMP `checksum` function: fold the carry twice
and return the 16-bit complement. -/
def checksum (b : List Nat) : Nat :=
  let s := csumPairs b
  let s2 := (s >>> 16) + (s % 65536)
  let s3 := s2 + (s2 >>> 16)
  65535 - (s3 % 65536)

/-- Model of `icmp.Echo.Marshal` for ICMPv4: big-endian
`uint16(ID)`, `uint16(Seq)`, then the payload bytes. -/
def echoBody (id seq : Int) (data : List Nat) : List Nat :=
  ((id % 65536).toNat / 256) :: ((id % 65536).toNat % 256) ::
    ((seq % 65536).toNat / 256) :: ((seq % 65536).toNat % 256) :: data

/-- Model of `icmp.Message.Marshal` for ICMPv4: header
`[type, code, 0, 0]`, body appended, then the checksum of the whole
buffer xored into bytes 2 and 3 (low byte first, as in the source). -/
def marshalMessage (t code : Nat) (body : List Nat) : List Nat :=
  let s := checksum (t :: code :: 0 :: 0 :: body)
  t :: code :: (s % 256) :: ((s / 256) % 256) :: body

/-- Model of `Proto.buf` (proto.go 59-71): marshal an Echo Request
(type 8, code 0) with the Proto's ID and Seq and an empty payload. -/
def buf (id seq : Int) : List Nat :=
  marshalMessage 8 0 (echoBody id seq [])

/-- Parsed ICMP message bodies.  `raw` stands for the x/net
`DefaultMessageBody` used for types without a registered parser;
the repository's `messageRead` never looks inside it. -/
inductive MsgBody where
  | echo (id seq : Int) (data : List Nat)
  | timeExceeded (data : List Nat)
  | raw (data : List Nat)
deriving DecidableEq, Repr

/-- A parsed ICMP message (`icmp.Message`).  The stored checksum field
is elided: the repository never consults it. -/
structure Msg where
  type : Nat
  code : Nat
  body : MsgBody
deriving DecidableEq, Repr

/-- Model of the x/net `parseEcho` body parser: needs at least 4 body
bytes, reads big-endian ID and Seq, keeps the rest as data. -/
def parseEchoBody (b : List Nat) : Option MsgBody :=
  if b.length < 4 then none
  else some (.echo ((b.getD 0 0) * 256 + b.getD 1 0) ((b.getD 2 0) * 256 + b.getD 3 0) (b.drop 4))

/-- Model of the x/net `parseTimeExceeded` body parser on messages
without ICMP multipart extensions (the only kind the repository ever
feeds it): needs at least 4 body bytes, the quoted datagram is the rest. -/
def parseTimeExceededBody (b : List Nat) : Option MsgBody :=
  if b.length < 4 then none
  else some (.timeExceeded (b.drop 4))

/-- Model of `icmp.ParseMessage(1, b)` restricted to the message types
the repository dispatches on: Echo (8) and Echo Reply (0) bodies parse
with `parseEchoBody`, Time Exceeded (11) with `parseTimeExceededBody`,
every other type gets a raw body (never inspected by `messageRead`). -/
def parseMessage (b : List Nat) : Option Msg :=
  if b.length < 4 then none
  else
    let t := b.getD 0 0
    let code := b.getD 1 0
    let bodyBytes := b.drop 4
    if t = 0 ∨ t = 8 then (parseEchoBody bodyBytes).map (fun bd => { type := t, code := code, body := bd })
    else if t = 11 then (parseTimeExceededBody bodyBytes).map (fun bd => { type := t, code := code, body := bd })
    else some { type := t, code := code, body := .raw bodyBytes }

/-- Model of the `parseEcho` closure inside `packet.messageRead`
(packet.go 213-221): require a positive ID, consult (and mutate) the
correlation table via `getTTL`, and build a `pongProto` only when the
computed rtt is positive.  Returns the produced Proto (if any) and the
updated table. -/
def parseEcho (ecId ecSeq : Int) (srcAddr : Option String) (tbl : TtlMap) (now : Int) :
    Option Proto × TtlMap :=
  if ecId > 0 then
    if (getTTL tbl ecId ecSeq now).1.2 > 0 then
      (some (pongProto (getTTL tbl ecId ecSeq now).1.1 ecId ecSeq srcAddr (aip4 srcAddr)
        (getTTL tbl ecId ecSeq now).1.2), (getTTL tbl ecId ecSeq now).2)
    else (none, (getTTL tbl ecId ecSeq now).2)
  else (none, tbl)

/-- Model of `packet.messageRead` (packet.go 211-247).  Echo Reply:
handled by `parseEcho` (the top-level type assertion cannot fail, the
parser returns an Echo body for type 0).  Time Exceeded: `ee.Data[20:]`
panics when the quoted datagram has fewer than 20 bytes; otherwise the
embedded message is parsed, a nil parse returns no Proto, and the
single-form assertion `msgBody.(*icmp.Echo)` panics when the embedded
message is not an Echo.  Other types produce no Proto. -/
def messageRead (msg : Msg) (srcAddr : Option String) (tbl : TtlMap) (now : Int) :
    Except GoPanic (Option Proto × TtlMap) :=
  if msg.type = 0 then
    match msg.body with
    | .echo i s _ => .ok (parseEcho i s srcAddr tbl now)
    | _ => .error .typeAssertEcho
  else if msg.type = 11 then
    match msg.body with
    | .timeExceeded data =>
      if data.length < 20 then .error .sliceOutOfRange
      else
        match parseMessage (data.drop 20) with
        | none => .ok (none, tbl)
        | some m0 =>
          match m0.body with
          | .echo i s _ => .ok (parseEcho i s srcAddr tbl now)
          | _ => .error .typeAssertEcho
    | _ => .ok (none, tbl)
  else .ok (none, tbl)

/-- One receive-loop step of `packet.startRead` (packet.go 195-205):
parse the buffer; a failed parse is skipped, otherwise the message goes
through `messageRead`. -/
def readPacket (b : List Nat) (srcAddr : Option String) (tbl : TtlMap) (now : Int) :
    Except GoPanic (Option Proto × TtlMap) :=
  match parseMessage b with
  | none => .ok (none, tbl)
  | some msg => messageRead msg srcAddr tbl now

/-! Orchestrator (traceroute.go). -/

/-- Model of `nextIcmpId`'s seed: `uint32(os.Getpid() & 0xffff)`. -/
def initIcmpId (pid : Nat) : Nat := pid &&& 65535

/-- The `icmpId` counter after `k` calls of `atomic.AddUint32(&icmpId, 1)`
(a `uint32`, so each increment wraps modulo `2 ^ 32`). -/
def icmpIdCounter (pid : Nat) : Nat → Nat
  | 0 => initIcmpId pid
  | k + 1 => (icmpIdCounter pid k + 1) % 4294967296

/-- Model of `nextIcmpId` (traceroute.go 33-35): the value returned by
the `k`-th call is the incremented counter reduced `% (2 << 15)`. -/
def nextIcmpId (pid k : Nat) : Nat :=
  icmpIdCounter pid k % (2 <<< 15)

/-- Model of `traceroute.readTTL` (traceroute.go 320-342) for a single
await: if the row's inbox holds a Proto it is returned (whatever its
seq), otherwise the deadline fires and a synthetic `timeoutProto` with
the awaited ttl/id/seq is returned.  The adaptive-pacing sleep does not
affect the returned value. -/
def readTTL (inbox : Option Proto) (ttl0 id seq : Int) : Proto :=
  match inbox with
  | some p => p
  | none => timeoutProto ttl0 id seq

/-- The Observations a TTL row hands to `handler` when it runs to
completion without Stop: `runPing` (traceroute.go 289-290) sends seq 0
unconditionally and awaits it, then `runTTL` (traceroute.go 310-316)
iterates `seq = 1 .. count-1`.  `replies seq` is the Proto sitting in
the row's inbox at that await (`none` when the probe went unanswered). -/
def rowObs (replies : Int → Option Proto) (ttl0 id : Int) (count : Int) : List Proto :=
  readTTL (replies 0) ttl0 id 0 ::
    (List.range (count - 1).toNat).map
      (fun k : Nat => readTTL (replies ((k : Int) + 1)) ttl0 id ((k : Int) + 1))

/-- Model of `ip4` (traceroute.go 365-371): a literal IP parses to
itself; otherwise `net.ResolveIPAddr`'s error is discarded — on failure
the nil address is returned together with `aip4 nil = ""`. -/
def ip4 (parses : String → Bool) (resolver : String → Option String) (s : String) :
    Option String × String :=
  if parses s then (some s, s)
  else
    match resolver s with
    | some a => (some a, aip4 (some a))
    | none => (none, aip4 none)

/-- Model of `Run` in the environment where no probe is ever answered —
exactly the situation after a failed resolution: every `WriteTo` to the
nil address fails, `startWrite` logs and continues (packet.go 154-160),
no correlation entry is created, and every `readTTL` times out.  When
the raw socket cannot be created, `listen` (packet.go 95-99) panics out
of `Run` before anything is sent. -/
def RunModel (socketOk : Bool) (maxTTL : Nat) (count : Int) (ids : Nat → Int) :
    Except GoPanic (List Proto) :=
  if socketOk then
    .ok ((List.range maxTTL).flatMap
      (fun i : Nat => rowObs (fun _ => none) ((i : Int) + 1) (ids i) count))
  else .error .listenPanic

/-! Session facade state (Run/Stop and the exit flag). -/

/-- The facade state visible to the send and handler paths: the `exit`
flag plus the lists of Protos accepted into the write channel and the
handler channel. -/
structure FacadeState where
  exitFlag : Bool
  wcLog : List Proto
  hcLog : List Proto
deriving DecidableEq, Repr

/-- Model of `traceroute.ping` (traceroute.go 255-261): a no-op when the
exit flag is set, otherwise the Proto enters the write channel. -/
def ping (st : FacadeState) (pto : Proto) : FacadeState :=
  if st.exitFlag then st else { st with wcLog := st.wcLog ++ [pto] }

/-- Model of `traceroute.handler` (traceroute.go 213-219): a no-op when
the exit flag is set, otherwise the Proto enters the handler channel. -/
def handler (st : FacadeState) (pto : Proto) : FacadeState :=
  if st.exitFlag then st else { st with hcLog := st.hcLog ++ [pto] }

/-- The `tr.exit = true` assignment performed by `Stop`
(traceroute.go 161). -/
def stopExit (st : FacadeState) : FacadeState :=
  { st with exitFlag := true }

/-- A call on the send path or on the handler path. -/
inductive FacadeOp where
  | ping (pto : Proto)
  | handler (pto : Proto)

/-- Apply a sequence of send/handler calls to the facade state. -/
def applyOps (st : FacadeState) : List FacadeOp → FacadeState
  | [] => st
  | .ping p :: rest => applyOps (ping st p) rest
  | .handler p :: rest => applyOps (handler st p) rest

/-! Stop before Run (claim C10). -/

/-- The part of the `traceroute` struct that decides whether `Stop` is
safe: the resolved address and the `packet` field, which stays nil until
`Run` executes `tr.packet = newPacket(...)` (traceroute.go 146). -/
structure TrState where
  addr : Option String
  ip4 : String
  packet : Option Unit
  exitFlag : Bool
deriving DecidableEq, Repr

/-- Model of `newTraceroute` (traceroute.go 71-102): resolve the target,
leave `packet` nil, `exit` false. -/
def newTraceroute (parses : String → Bool) (resolver : String → Option String)
    (address : String) : TrState :=
  { addr := (ip4 parses resolver address).1
    ip4 := (ip4 parses resolver address).2
    packet := none
    exitFlag := false }

/-- The `tr.packet = newPacket(...)` assignment at the start of `Run`
(traceroute.go 146). -/
def runSetsPacket (st : TrState) : TrState :=
  { st with packet := some () }

/-- Model of `traceroute.Stop` (traceroute.go 157-177): set the exit
flag, then call `tr.packet.stop()`.  `packet.stop` sends on `p.wec`
(packet.go 125), a field access that panics when the receiver is nil. -/
def Stop (st : TrState) : Except GoPanic TrState :=
  let st2 := { st with exitFlag := true }
  match st2.packet with
  | none => .error .nilPointerDeref
  | some _ => .ok st2

/-! Receive pipeline fed with a sequence of inbound Echo events
(claim C1). -/

/-- An inbound Echo Reply already extracted by the wire codec: the
embedded id and seq, the source address, and the wall-clock instant at
which `getTTL` runs. -/
structure EchoEv where
  ecId : Int
  ecSeq : Int
  src : Option String
  now : Int

/-- Feed a sequence of Echo events through `parseEcho`, threading the
correlation table exactly as `startRead` does, and collect every Proto
that is emitted towards the orchestrator. -/
def processEchoes : List EchoEv → TtlMap → List Proto × TtlMap
  | [], tbl => ([], tbl)
  | ev :: rest, tbl =>
    match parseEcho ev.ecId ev.ecSeq ev.src tbl ev.now with
    | (none, tbl2) => processEchoes rest tbl2
    | (some p, tbl2) =>
      let r := processEchoes rest tbl2
      (p :: r.1, r.2)

/-! Max-hop lowering (claim C7). -/

/-- A reply as seen by `startPong`: the TTL recovered from the
correlation table and the responder's IPv4 string. -/
structure PongEv where
  ttl : Int
  ip4 : String
deriving DecidableEq, Repr

/-- Model of the max-hop update in `startPong` (traceroute.go 203-206),
traceroute mode: lower `maxHop` to the reply's TTL exactly when the
reply came from the target and its TTL is below the current `maxHop`. -/
def pongMaxHop (target : String) (maxHop : Int) (ev : PongEv) : Int :=
  if ev.ip4 = target ∧ maxHop > ev.ttl then ev.ttl else maxHop

/-- The `runPing` main loop (traceroute.go 275-296), traceroute mode,
abstracted to what claim C7 is about: while `i < maxHop`, row `i` is
lazily set up (`tr.id[ttl] == 0` check) and its probe sent, and
`sched i` — the replies `startPong` processes during row `i`'s await —
updates `maxHop`.  Returns the final `maxHop` and the list of row
indices that were set up.  The fuel argument only bounds the recursion;
`runPingTr` supplies enough for the loop to stop on its own test. -/
def runPingLoop (target : String) (sched : Nat → List PongEv) :
    Nat → Nat → Int → List Nat → Int × List Nat
  | 0, _, maxHop, inited => (maxHop, inited)
  | fuel + 1, i, maxHop, inited =>
    if (i : Int) < maxHop then
      runPingLoop target sched fuel (i + 1)
        (List.foldl (pongMaxHop target) maxHop (sched i)) (inited ++ [i])
    else (maxHop, inited)

/-- Run the traceroute main loop from row 0 with `maxHop = maxTTL`. -/
def runPingTr (target : String) (sched : Nat → List PongEv) (maxTTL : Nat) : Int × List Nat :=
  runPingLoop target sched (maxTTL + 1) 0 (maxTTL : Int) []

/-! Concrete scenario data used by counterexamples and witnesses. -/

/-- C1 scenario, step 1: probe `(id 7, seq 0)` with wire TTL 1 is sent at
t = 0 ms; `startWrite` records it in the correlation table. -/
def c1Table1 : TtlMap := setTTL [] 1 7 0 0

/-- C1 scenario, step 2: no reply reaches the row inbox before the read
deadline, so `readTTL` returns a synthetic timeout for `(7, 0)`, which
`handler` delivers. -/
def c1Obs1 : Proto := readTTL none 1 7 0

/-- C1 scenario, step 3: `runTTL` sends probe `(id 7, seq 1)` at
t = 600 ms; the table now holds both entries. -/
def c1Table2 : TtlMap := setTTL c1Table1 1 7 1 600

/-- C1 scenario, step 4: the late Echo Reply to probe `(7, 0)` — type 0,
code 0, id 7, seq 0 (checksum bytes are not consulted by the parser). -/
def c1ReplyBytes : List Nat := [0, 0, 0, 0, 0, 7, 0, 0]

/-- C1 scenario, step 4 continued: `startRead` parses the late reply at
t = 650 ms and `messageRead` finds the still-present entry for `(7, 0)`. -/
def c1Recv : Except GoPanic (Option Proto × TtlMap) :=
  readPacket c1ReplyBytes (some "10.0.0.9") c1Table2 650

/-- C1 scenario, step 5: `startPong` routes the pong to the row inbox and
the await for seq 1 returns it, so `handler` delivers it — an
Observation that still carries `(7, 0)`. -/
def c1Obs2 : Proto :=
  readTTL (match c1Recv with | .ok (p, _) => p | .error _ => none) 1 7 1

/-- C2 failing input: a Time Exceeded message (type 11) with the minimal
4-byte body and an empty quoted datagram — well-formed for
`icmp.ParseMessage`, but `ee.Data[20:]` is out of range. -/
def c2Bytes : List Nat := [11, 0, 0, 0, 0, 0, 0, 0]

/-- C7 counterexample schedule: the terminal reply to row 0's probe
(recorded TTL 1, source = target) arrives late, while the loop is
already awaiting row 2. -/
def c7BadSched : Nat → List PongEv :=
  fun j => if j = 2 then [{ ttl := 1, ip4 := "9.9.9.9" }] else []

/-- C7 witness schedule: the terminal reply arrives during its own row's
await (row 2, recorded TTL 3). -/
def c7GoodSched : Nat → List PongEv :=
  fun j => if j = 2 then [{ ttl := 3, ip4 := "9.9.9.9" }] else []

/-- C8 witness table: probe `(7, 0)` sent with TTL 1 at t = 100 ms. -/
def c8Tbl : TtlMap := [(ttlKey 7 0, { ttl := 1, unix := 100 })]

/-! Theorems. -/

/-- Claim C2 (code_bug): the spec demands that the Time Exceeded decoder
return the Other/none outcome on every input on which a parsing step
fails, and the code's own comments say "return nil if parsing fails" —
but on a Time Exceeded message whose quoted datagram is shorter than 20
bytes, `messageRead` evaluates `ee.Data[20:]` and panics with a slice
bound error instead.  `c2Bytes` is such a message: type 11, minimal
4-byte body, empty quoted datagram. -/
theorem C2_decoder_panics_on_short_quote :
    readPacket c2Bytes (some "10.0.0.1") [] 0 = .error .sliceOutOfRange := by
  rfl

/-- Claim C9 (confirmed): every value produced by the ICMP id generator
is below `2 ^ 16`; the generator is an atomic `uint32` counter seeded
with `os.Getpid() & 0xffff`, incremented by one per assignment and
reduced `% (2 << 15) = 2 ^ 16`, so the `k`-th assignment returns
`(seed + k) % 2 ^ 16`. -/
theorem C9_icmp_id_allocation (pid k : Nat) :
    nextIcmpId pid k < 65536 ∧ nextIcmpId pid k = (initIcmpId pid + k) % 65536 := by
  have hshift : (2 <<< 15) = 65536 := by decide
  have hseed : initIcmpId pid < 4294967296 := by
    have : initIcmpId pid ≤ 65535 := Nat.and_le_right
    omega
  have hcounter : ∀ n : Nat, icmpIdCounter pid n = (initIcmpId pid + n) % 4294967296 := by
    intro n
    induction n with
    | zero => simp [icmpIdCounter, Nat.mod_eq_of_lt hseed]
    | succ m ih =>
      simp only [icmpIdCounter, ih, Nat.mod_add_mod]
      ring_nf
  constructor
  · simp only [nextIcmpId, hshift]
    exact Nat.mod_lt _ (by norm_num)
  · simp only [nextIcmpId, hshift, hcounter k]
    exact Nat.mod_mod_of_dvd _ ⟨65536, by norm_num⟩

/-- Claim C10 (confirmed): calling `Stop` on a session on which `Run`
was never called panics: `Stop` unconditionally calls
`tr.packet.stop()`, but `packet` is only assigned inside `Run`, so the
field access inside `stop` dereferences a nil pointer.  After
`runSetsPacket` (the assignment `Run` performs) the same call succeeds. -/
theorem C10_stop_before_run_panics (parses : String → Bool)
    (resolver : String → Option String) (address : String) :
    Stop (newTraceroute parses resolver address) = .error .nilPointerDeref
    ∧ ∀ st : TrState, Stop (runSetsPacket st) = .ok { runSetsPacket st with exitFlag := true } := by
  constructor
  · rfl
  · intro st
    rfl

/-- Claim C1, counterexample: the claim says a probe reported as a
timeout is never additionally reported as a reply.  In the interleaving
recorded by the `c1*` scenario definitions — probe `(7, 0)` times out,
its Echo Reply arrives after the deadline while the row awaits seq 1 —
the handler path receives both a timeout Observation and a reply
Observation carrying `(id 7, seq 0)`: the correlation entry is not
removed on timeout, so the late reply still matches. -/
theorem C1_timeout_then_reply_counterexample :
    c1Obs1 = timeoutProto 1 7 0
    ∧ c1Obs2 = pongProto 1 7 0 (some "10.0.0.9") "10.0.0.9" 650000000
    ∧ c1Obs1.id = c1Obs2.id ∧ c1Obs1.seq = c1Obs2.seq
    ∧ c1Obs1.rtt = 0 ∧ 0 < c1Obs2.rtt := by
  refine ⟨rfl, rfl, rfl, rfl, rfl, ?_⟩
  decide

/-- Claim C3, counterexample: the claim says a resolution failure
surfaces as a SetupError at `Run` and the session makes no further
progress.  But `ip4` discards the resolver error and returns the nil
address with an empty string, and `Run` then proceeds normally: with
`maxTTL = 1`, `count = 1` it completes without any error and emits a
timeout Observation. -/
theorem C3_resolution_failure_counterexample :
    ip4 (fun _ => false) (fun _ => none) "nohost.invalid" = (none, "")
    ∧ RunModel true 1 1 (fun _ => 7) = .ok [timeoutProto 1 7 0]
    ∧ ([timeoutProto 1 7 0] : List Proto).length = 1 := by
  refine ⟨rfl, ?_, rfl⟩
  rfl

/-- Claim C6, counterexample: the claim says the number of Observations
delivered for a completed row equals `count` for every non-negative
count.  With `count = 0` the row still delivers one Observation, because
`runPing` sends and awaits the seq-0 probe unconditionally before
`runTTL` ever looks at `count`. -/
theorem C6_zero_count_counterexample :
    rowObs (fun _ => none) 1 7 0 = [timeoutProto 1 7 0]
    ∧ (rowObs (fun _ => none) 1 7 0).length ≠ 0 := by
  constructor
  · rfl
  · decide

/-- Claim C7, counterexample: the claim says rows at indices at or
beyond the final `maxHop` are never initialized.  Under `c7BadSched`
the terminal reply to row 0's probe (recorded TTL 1, source equal to
the target) arrives only while the loop awaits row 2, so rows 0, 1 and 2
have already been initialized when `maxHop` drops to 1: the initialized
set `[0, 1, 2]` is not `range 1`. -/
theorem C7_late_terminal_counterexample :
    (runPingTr "9.9.9.9" c7BadSched 3).1 = 1
    ∧ (runPingTr "9.9.9.9" c7BadSched 3).2 = [0, 1, 2]
    ∧ (runPingTr "9.9.9.9" c7BadSched 3).2
        ≠ List.range (runPingTr "9.9.9.9" c7BadSched 3).1.toNat := by
  refine ⟨?_, ?_, ?_⟩ <;> decide

/-- Claim C5 (confirmed): once `Stop` has set the session's exit flag,
every subsequent call on the send path (`ping`) and on the handler path
(`handler`) is a no-op: after any sequence of such calls the facade
state — in particular the write channel and the handler channel — is
unchanged, so nothing is sent and no Observation is delivered. -/
theorem C5_stop_halts_send_and_handler (st : FacadeState) (ops : List FacadeOp) :
    applyOps (stopExit st) ops = stopExit st := by
  induction ops with
  | nil => rfl
  | cons op rest ih =>
    cases op with
    | ping p => simpa [applyOps, ping, stopExit] using ih
    | handler p => simpa [applyOps, handler, stopExit] using ih

/-- Claim C4 (confirmed): decoding the bytes produced by encoding an
Echo Request with a 16-bit id and seq yields an Echo result with the
same id and seq — `icmp.ParseMessage` applied to `Proto.buf` returns a
type-8 message whose Echo body carries exactly the encoded identifiers
(the round trip the repository's own `TestProtoBuf` exercises). -/
theorem C4_codec_roundtrip (id seq : Int)
    (h1 : 0 ≤ id) (h2 : id < 65536) (h3 : 0 ≤ seq) (h4 : seq < 65536) :
    parseMessage (buf id seq) = some { type := 8, code := 0, body := .echo id seq [] } := by
  simp only [buf, marshalMessage, echoBody, parseMessage, parseEchoBody, List.length_cons,
    List.length_nil, List.getD, List.drop, Option.map_some]
  norm_num
  constructor <;> omega

/-- The rtt produced by `getTTL` is either zero (no table entry) or a
nonzero whole number of milliseconds expressed in nanoseconds. -/
lemma getTTL_rtt_shape (tbl : TtlMap) (a b now : Int) :
    (getTTL tbl a b now).1.2 = 0
    ∨ ∃ ms : Int, ms ≠ 0 ∧ (getTTL tbl a b now).1.2 = ms * 1000000 := by
  cases h : tbl.lookup (ttlKey a b) with
  | none => left; simp [getTTL, h]
  | some opt =>
    right
    refine ⟨if now - opt.unix = 0 then 1 else now - opt.unix, ?_, ?_⟩
    · split_ifs <;> omega
    · simp [getTTL, h]

/-- Claim C8 (confirmed): for a reply matched against a correlation
entry, the computed rtt equals `max(1 ms, now − send_instant)` (the
send instant cannot lie in the future of the receive instant on one
clock), and every Proto that `parseEcho` actually emits has
`rtt ≥ 1 ms = 10 ^ 6 ns` — a genuine reply is never confused with the
`rtt = 0` timeout sentinel. -/
theorem C8_rtt_floor (tbl : TtlMap) (id seq now ttl unix : Int) (ecId ecSeq : Int)
    (src : Option String)
    (hlook : tbl.lookup (ttlKey id seq) = some { ttl := ttl, unix := unix })
    (hle : unix ≤ now) :
    (getTTL tbl id seq now).1.2 = max 1 (now - unix) * 1000000
    ∧ ∀ (p : Proto) (tbl2 : TtlMap),
        parseEcho ecId ecSeq src tbl now = (some p, tbl2) → 1000000 ≤ p.rtt := by
  constructor
  · have hmax : (if now - unix = 0 then 1 else now - unix) = max 1 (now - unix) := by
      split_ifs <;> omega
    simp [getTTL, hlook, hmax]
  · intro p tbl2 hp
    unfold parseEcho at hp
    split at hp
    · split at hp
      · rename_i hpos
        rcases getTTL_rtt_shape tbl ecId ecSeq now with hz | ⟨ms, hms, hrtt⟩
        · omega
        · simp only [Prod.mk.injEq, Option.some.injEq] at hp
          have : p.rtt = (getTTL tbl ecId ecSeq now).1.2 := by
            rw [← hp.1]; rfl
          omega
      · simp at hp
    · simp at hp

/-- Length of a completed row's Observation list. -/
lemma rowObs_length (replies : Int → Option Proto) (ttl0 id count : Int) (h : 1 ≤ count) :
    (rowObs replies ttl0 id count).length = count.toNat := by
  simp only [rowObs, List.length_cons, List.length_map, List.length_range]
  omega

/-- A row on which no probe is answered delivers exactly the synthetic
timeout Observations for seq `0 .. count-1`. -/
lemma rowObs_none_eq (ttl0 id count : Int) (h : 1 ≤ count) :
    rowObs (fun _ => none) ttl0 id count
      = (List.range count.toNat).map (fun s : Nat => timeoutProto ttl0 id (s : Int)) := by
  have hn : count.toNat = (count - 1).toNat + 1 := by omega
  rw [hn, List.range_succ_eq_map, List.map_cons, List.map_map]
  simp only [rowObs, readTTL]
  congr 1

/-- Claim C6, amended (corrected): for every row that runs to completion
without Stop and every `count ≥ 1`, the number of Observations delivered
equals `count`, and when every probe times out the row delivers exactly
the `count` synthetic timeout Observations with seq `0 .. count-1`.
(For `count ≤ 0` the claim fails: the seq-0 probe is sent
unconditionally, see the counterexample.) -/
theorem C6_amended_row_count (replies : Int → Option Proto) (ttl0 id count : Int)
    (h : 1 ≤ count) :
    ((rowObs replies ttl0 id count).length : Int) = count
    ∧ rowObs (fun _ => none) ttl0 id count
        = (List.range count.toNat).map (fun s : Nat => timeoutProto ttl0 id (s : Int)) := by
  refine ⟨?_, rowObs_none_eq ttl0 id count h⟩
  have := rowObs_length replies ttl0 id count h
  omega

/-- Witness for C6's amended theorem at `count = 2`. -/
theorem C6_amended_row_count_witness :
    ((rowObs (fun _ => none) 1 7 2).length : Int) = 2
    ∧ rowObs (fun _ => none) 1 7 2
        = (List.range (2 : Int).toNat).map (fun s : Nat => timeoutProto 1 7 (s : Int)) :=
  C6_amended_row_count (fun _ => none) 1 7 2 (by norm_num)

/-- The length of a flatMap whose pieces all have the same length. -/
lemma flatMap_const_length {α β : Type} (l : List α) (f : α → List β) (c : Nat)
    (h : ∀ a ∈ l, (f a).length = c) : (l.flatMap f).length = l.length * c := by
  induction l with
  | nil => simp
  | cons a t ih =>
    simp only [List.flatMap_cons, List.length_append, List.length_cons]
    rw [h a (by simp), ih (fun b hb => h b (by simp [hb]))]
    ring

/-- Claim C3, amended (corrected): if the raw socket cannot be created
or bound, `listen` panics out of `Run` synchronously and nothing is
sent; but a resolution failure is not surfaced at all — `ip4` discards
the resolver error and returns the nil address with an empty string, and
`Run` then proceeds to completion, emitting `maxTTL * count` timeout
Observations (every send to the nil address fails and every await times
out). -/
theorem C3_amended_setup_behavior (parses : String → Bool)
    (resolver : String → Option String) (s : String)
    (maxTTL : Nat) (count : Int) (ids : Nat → Int)
    (hres : resolver s = none) (hparse : parses s = false) (hcount : 1 ≤ count) :
    ip4 parses resolver s = (none, "")
    ∧ RunModel false maxTTL count ids = .error .listenPanic
    ∧ ∃ l : List Proto, RunModel true maxTTL count ids = .ok l
        ∧ l.length = maxTTL * count.toNat
        ∧ ∀ p ∈ l, p.rtt = 0 ∧ p.ip4 = "" ∧ p.addr = none := by
  refine ⟨by simp [ip4, hparse, hres, aip4], rfl, ?_⟩
  refine ⟨_, rfl, ?_, ?_⟩
  · rw [flatMap_const_length _ _ count.toNat
      (fun (i : Nat) _ => rowObs_length (fun _ => none) ((i : Int) + 1) (ids i) count hcount)]
    simp
  · intro p hp
    rw [List.mem_flatMap] at hp
    obtain ⟨i, _, hpi⟩ := hp
    rw [rowObs_none_eq ((i : Int) + 1) (ids i) count hcount, List.mem_map] at hpi
    obtain ⟨sq, _, hsq⟩ := hpi
    rw [← hsq]
    exact ⟨rfl, rfl, rfl⟩

/-- Witness for C3's amended theorem at a concrete unresolvable target,
`maxTTL = 2`, `count = 2`. -/
theorem C3_amended_setup_behavior_witness :
    ip4 (fun _ => false) (fun _ => none) "nohost.invalid" = (none, "")
    ∧ RunModel false 2 2 (fun _ => 7) = .error .listenPanic
    ∧ ∃ l : List Proto, RunModel true 2 2 (fun _ => 7) = .ok l
        ∧ l.length = 2 * (2 : Int).toNat
        ∧ ∀ p ∈ l, p.rtt = 0 ∧ p.ip4 = "" ∧ p.addr = none :=
  C3_amended_setup_behavior (fun _ => false) (fun _ => none) "nohost.invalid" 2 2
    (fun _ => 7) rfl rfl (by norm_num)

/-- Witness for C4's round-trip theorem at `id = 7`, `seq = 9`. -/
theorem C4_codec_roundtrip_witness :
    parseMessage (buf 7 9) = some { type := 8, code := 0, body := .echo 7 9 [] } :=
  C4_codec_roundtrip 7 9 (by norm_num) (by norm_num) (by norm_num) (by norm_num)

/-- Witness for C8's rtt theorem: entry `(7, 0)` sent at t = 100 ms,
reply processed at t = 100 ms — the floor forces 1 ms. -/
theorem C8_rtt_floor_witness :
    (getTTL c8Tbl 7 0 100).1.2 = max 1 (100 - 100) * 1000000
    ∧ ∀ (p : Proto) (tbl2 : TtlMap),
        parseEcho 7 0 (some "8.8.8.8") c8Tbl 100 = (some p, tbl2) → 1000000 ≤ p.rtt :=
  C8_rtt_floor c8Tbl 7 0 100 1 100 7 0 (some "8.8.8.8") rfl (by norm_num)

/-- Association-list lookup on a cons cell, as an if-then-else. -/
lemma lookup_cons_pair (k a : String) (b : TtlOpt) (t : TtlMap) :
    List.lookup k ((a, b) :: t) = if k = a then some b else List.lookup k t := by
  cases hbeq : k == a
  · have h2 : ¬ k = a := by simpa using hbeq
    simp [List.lookup, hbeq, h2]
  · have h2 : k = a := by simpa using hbeq
    simp [List.lookup, hbeq, h2]

/-- Looking a key up in a list from which every entry with that key has
been filtered out yields nothing. -/
lemma lookup_filter_self (m : TtlMap) (k : String) :
    (m.filter (fun e => e.1 != k)).lookup k = none := by
  induction m with
  | nil => rfl
  | cons a t ih =>
    rcases a with ⟨ak, av⟩
    rw [List.filter_cons]
    by_cases h : ak = k
    · simpa [h] using ih
    · have hcond : (((ak, av) : String × TtlOpt).1 != k) = true := by simpa using h
      rw [if_pos hcond, lookup_cons_pair]
      rw [if_neg (fun hkk => h hkk.symm)]
      exact ih

/-- Filtering preserves the absence of a key. -/
lemma lookup_filter_none (m : TtlMap) (k : String) (f : String × TtlOpt → Bool)
    (h : m.lookup k = none) : (m.filter f).lookup k = none := by
  induction m with
  | nil => rfl
  | cons a t ih =>
    rcases a with ⟨ak, av⟩
    rw [lookup_cons_pair] at h
    by_cases hk : k = ak
    · rw [if_pos hk] at h
      exact absurd h (by simp)
    · rw [if_neg hk] at h
      rw [List.filter_cons]
      split
      · rw [lookup_cons_pair, if_neg hk]
        exact ih h
      · exact ih h

/-- Case analysis of `parseEcho`: either no Proto is emitted and the
table only loses entries, or a pong for exactly the looked-up key is
emitted and that key is deleted from the table. -/
lemma parseEcho_spec (ecId ecSeq : Int) (src : Option String) (tbl : TtlMap) (now : Int) :
    (∃ tbl2, parseEcho ecId ecSeq src tbl now = (none, tbl2)
      ∧ ∀ k, tbl.lookup k = none → tbl2.lookup k = none)
    ∨ (∃ rtt tbl2 ttl, 0 < rtt
      ∧ parseEcho ecId ecSeq src tbl now
          = (some (pongProto ttl ecId ecSeq src (aip4 src) rtt), tbl2)
      ∧ tbl.lookup (ttlKey ecId ecSeq) ≠ none
      ∧ tbl2.lookup (ttlKey ecId ecSeq) = none
      ∧ ∀ k, tbl.lookup k = none → tbl2.lookup k = none) := by
  by_cases hid : ecId > 0
  · cases hl : tbl.lookup (ttlKey ecId ecSeq) with
    | none =>
      left
      refine ⟨tbl, ?_, fun k hk => hk⟩
      simp [parseEcho, getTTL, hl, hid]
    | some opt =>
      by_cases hrtt : (getTTL tbl ecId ecSeq now).1.2 > 0
      · right
        refine ⟨(getTTL tbl ecId ecSeq now).1.2, (getTTL tbl ecId ecSeq now).2,
          (getTTL tbl ecId ecSeq now).1.1, hrtt, ?_, ?_, ?_, ?_⟩
        · simp [parseEcho, hid, hrtt]
        · simp [hl]
        · simp only [getTTL, hl]
          exact lookup_filter_self tbl (ttlKey ecId ecSeq)
        · intro k hk
          simp only [getTTL, hl]
          exact lookup_filter_none tbl k _ hk
      · left
        refine ⟨(getTTL tbl ecId ecSeq now).2, ?_, ?_⟩
        · simp [parseEcho, hid, hrtt]
        · intro k hk
          cases hl2 : tbl.lookup (ttlKey ecId ecSeq) with
          | none => simpa [getTTL, hl2] using hk
          | some opt2 =>
            simp only [getTTL, hl2]
            exact lookup_filter_none tbl k _ hk
  · left
    refine ⟨tbl, ?_, fun k hk => hk⟩
    simp [parseEcho, hid]

/-- If a key is absent from the table, no Proto subsequently emitted by
the receive pipeline carries that key: `parseEcho` never re-inserts
entries, it only deletes them. -/
lemma processEchoes_absent_key (evs : List EchoEv) :
    ∀ (tbl : TtlMap) (k : String), tbl.lookup k = none →
      ∀ q ∈ (processEchoes evs tbl).1, ttlKey q.id q.seq ≠ k := by
  induction evs with
  | nil =>
    intro tbl k _ q hq
    simp [processEchoes] at hq
  | cons ev rest ih =>
    intro tbl k hk q hq
    rcases parseEcho_spec ev.ecId ev.ecSeq ev.src tbl ev.now with
      ⟨tbl2, heq, hpres⟩ | ⟨rtt, tbl2, ttl, _, heq, hmem, _, hpres⟩
    · rw [show processEchoes (ev :: rest) tbl = processEchoes rest tbl2 by
        simp only [processEchoes, heq]] at hq
      exact ih tbl2 k (hpres k hk) q hq
    · rw [show processEchoes (ev :: rest) tbl
          = (pongProto ttl ev.ecId ev.ecSeq ev.src (aip4 ev.src) rtt
              :: (processEchoes rest tbl2).1, (processEchoes rest tbl2).2) by
        simp only [processEchoes, heq]] at hq
      rcases List.mem_cons.mp hq with hq1 | hq2
      · subst hq1
        intro hkey
        exact hmem (hkey ▸ hk)
      · exact ih tbl2 k (hpres k hk) q hq2

/-- Claim C1, amended (corrected): among the Protos the receive pipeline
emits towards the orchestrator, at most one is a reply for any given
`(id, seq)` — the correlation entry is removed on the first matching
reply, so a second reply for the same probe never produces an
Observation.  (A probe reported as a timeout can still additionally be
reported as a reply when its reply arrives after the deadline, see the
counterexample: the entry is not removed on timeout.) -/
theorem C1_amended_at_most_one_reply (evs : List EchoEv) (tbl : TtlMap) :
    ((processEchoes evs tbl).1).Pairwise
      (fun p q => ¬(p.id = q.id ∧ p.seq = q.seq)) := by
  induction evs generalizing tbl with
  | nil => simp [processEchoes]
  | cons ev rest ih =>
    rcases parseEcho_spec ev.ecId ev.ecSeq ev.src tbl ev.now with
      ⟨tbl2, heq, _⟩ | ⟨rtt, tbl2, ttl, _, heq, _, hdel, _⟩
    · rw [show processEchoes (ev :: rest) tbl = processEchoes rest tbl2 by
        simp only [processEchoes, heq]]
      exact ih tbl2
    · rw [show processEchoes (ev :: rest) tbl
          = (pongProto ttl ev.ecId ev.ecSeq ev.src (aip4 ev.src) rtt
              :: (processEchoes rest tbl2).1, (processEchoes rest tbl2).2) by
        simp only [processEchoes, heq]]
      refine List.Pairwise.cons ?_ (ih tbl2)
      intro q hq hcontra
      have hkq := processEchoes_absent_key rest tbl2 (ttlKey ev.ecId ev.ecSeq) hdel q hq
      apply hkq
      rw [← hcontra.1, ← hcontra.2]
      rfl

/-- The `startPong` update is a conditional minimum: a terminal reply
takes the minimum of the current `maxHop` and its TTL, any other reply
leaves `maxHop` unchanged. -/
lemma pongMaxHop_min (target : String) (m : Int) (ev : PongEv) :
    pongMaxHop target m ev = if ev.ip4 = target then min m ev.ttl else m := by
  by_cases h : ev.ip4 = target
  · simp only [pongMaxHop, h, true_and, if_pos]
    split_ifs <;> omega
  · simp [pongMaxHop, h]

/-- Folding the `startPong` update over a batch of replies computes the
minimum of the incoming `maxHop` and the TTLs of the terminal replies
(those whose source equals the target): the smallest terminal TTL wins. -/
lemma foldl_pong_min (target : String) (evs : List PongEv) :
    ∀ m : Int, List.foldl (pongMaxHop target) m evs
      = List.foldl min m ((evs.filter (fun e => e.ip4 == target)).map PongEv.ttl) := by
  induction evs with
  | nil => intro m; rfl
  | cons ev rest ih =>
    intro m
    by_cases h : ev.ip4 = target
    · rw [List.foldl_cons, pongMaxHop_min, if_pos h, List.filter_cons]
      have hb : (ev.ip4 == target) = true := by simpa using h
      rw [if_pos hb, List.map_cons, List.foldl_cons]
      exact ih (min m ev.ttl)
    · rw [List.foldl_cons, pongMaxHop_min, if_neg h, List.filter_cons]
      have hb : ¬ ((ev.ip4 == target) = true) := by simpa using h
      rw [if_neg hb]
      exact ih m

/-- When every terminal reply in a batch carries TTL `c` and `c` is at
most the incoming `maxHop`, the folded `maxHop` stays between `c` and
the incoming value. -/
lemma foldSlot_bounds (target : String) (evs : List PongEv) (c : Int) :
    ∀ m : Int, (∀ ev ∈ evs, ev.ip4 = target → ev.ttl = c) → c ≤ m →
      c ≤ List.foldl (pongMaxHop target) m evs
      ∧ List.foldl (pongMaxHop target) m evs ≤ m := by
  induction evs with
  | nil => intro m _ hc; exact ⟨hc, le_refl m⟩
  | cons ev rest ih =>
    intro m hev hc
    have hstep : c ≤ pongMaxHop target m ev ∧ pongMaxHop target m ev ≤ m := by
      unfold pongMaxHop
      split_ifs with h
      · have := hev ev (by simp) h.1
        omega
      · exact ⟨hc, le_refl m⟩
    have hrec := ih (pongMaxHop target m ev)
      (fun e he hip => hev e (List.mem_cons_of_mem _ he) hip) hstep.1
    exact ⟨hrec.1, le_trans hrec.2 hstep.2⟩

/-- Main-loop invariant: starting at row `i` with the rows `0 .. i-1`
already set up and `i ≤ maxHop`, if every terminal reply arrives during
its own row's await (its recorded TTL is the row's wire TTL `j + 1`),
then the loop ends with `i ≤ maxHop' ≤ maxHop` and the set-up rows are
exactly `0 .. maxHop' - 1`. -/
lemma runPingLoop_spec (target : String) (sched : Nat → List PongEv)
    (H : ∀ j ev, ev ∈ sched j → ev.ip4 = target → ev.ttl = (j : Int) + 1) :
    ∀ (fuel i : Nat) (m : Int), (i : Int) ≤ m → m ≤ (i : Int) + (fuel : Int) →
      (i : Int) ≤ (runPingLoop target sched fuel i m (List.range i)).1
      ∧ (runPingLoop target sched fuel i m (List.range i)).1 ≤ m
      ∧ (runPingLoop target sched fuel i m (List.range i)).2
          = List.range (runPingLoop target sched fuel i m (List.range i)).1.toNat := by
  intro fuel
  induction fuel with
  | zero =>
    intro i m h1 h2
    simp only [runPingLoop]
    refine ⟨h1, le_refl m, ?_⟩
    have hm : m.toNat = i := by omega
    rw [hm]
  | succ fuel ih =>
    intro i m h1 h2
    by_cases hlt : (i : Int) < m
    · obtain ⟨hs1, hs2⟩ := foldSlot_bounds target (sched i) ((i : Int) + 1) m
        (fun ev hev hip => H i ev hev hip) (by omega)
      rw [show runPingLoop target sched (fuel + 1) i m (List.range i)
          = runPingLoop target sched fuel (i + 1)
              (List.foldl (pongMaxHop target) m (sched i)) (List.range (i + 1)) by
        simp only [runPingLoop, if_pos hlt, List.range_succ]]
      have hrec := ih (i + 1) (List.foldl (pongMaxHop target) m (sched i))
        (by push_cast; omega) (by push_cast; omega)
      refine ⟨?_, le_trans hrec.2.1 hs2, hrec.2.2⟩
      have := hrec.1
      push_cast at this ⊢
      omega
    · simp only [runPingLoop, if_neg hlt]
      refine ⟨h1, le_refl m, ?_⟩
      have hm : m.toNat = i := by omega
      rw [hm]

/-- Claim C7, amended (corrected): `maxHop` is monotonically
non-increasing (the final value is at most the initial `maxTTL`); the
fold of the `startPong` update computes the minimum of the current
`maxHop` and the TTLs of the terminal replies, i.e. it is lowered to a
reply's TTL exactly when the reply's ip4 equals the target's and its TTL
is below the current `maxHop`, and the smallest terminal TTL wins; and —
provided every terminal reply arrives during its own row's await — the
rows set up are exactly those at indices below the final `maxHop`.
(Without that timing proviso the last part fails: a late terminal reply
lowers `maxHop` below rows that were already set up, see the
counterexample.) -/
theorem C7_amended_maxhop (target : String) (sched : Nat → List PongEv) (maxTTL : Nat)
    (H : ∀ j ev, ev ∈ sched j → ev.ip4 = target → ev.ttl = (j : Int) + 1) :
    (runPingTr target sched maxTTL).1 ≤ (maxTTL : Int)
    ∧ (∀ (m : Int) (evs : List PongEv),
        List.foldl (pongMaxHop target) m evs
          = List.foldl min m ((evs.filter (fun e => e.ip4 == target)).map PongEv.ttl))
    ∧ (runPingTr target sched maxTTL).2
        = List.range (runPingTr target sched maxTTL).1.toNat := by
  have he : runPingTr target sched maxTTL
      = runPingLoop target sched (maxTTL + 1) 0 (maxTTL : Int) (List.range 0) := rfl
  have hspec := runPingLoop_spec target sched H (maxTTL + 1) 0 (maxTTL : Int)
    (by omega) (by push_cast; omega)
  rw [he]
  exact ⟨hspec.2.1, fun m evs => foldl_pong_min target evs m, hspec.2.2⟩

/-- Witness for C7's amended theorem: target `9.9.9.9`, `maxTTL = 4`,
terminal reply with TTL 3 arriving during row 2's await — `maxHop`
drops to 3 and exactly rows 0, 1, 2 are set up. -/
theorem C7_amended_maxhop_witness :
    (runPingTr "9.9.9.9" c7GoodSched 4).1 ≤ ((4 : Nat) : Int)
    ∧ (∀ (m : Int) (evs : List PongEv),
        List.foldl (pongMaxHop "9.9.9.9") m evs
          = List.foldl min m ((evs.filter (fun e => e.ip4 == "9.9.9.9")).map PongEv.ttl))
    ∧ (runPingTr "9.9.9.9" c7GoodSched 4).2
        = List.range (runPingTr "9.9.9.9" c7GoodSched 4).1.toNat :=
  C7_amended_maxhop "9.9.9.9" c7GoodSched 4 (by
    intro j ev hev hip
    by_cases hj : j = 2
    · subst hj
      simp [c7GoodSched] at hev
      subst hev
      rfl
    · simp [c7GoodSched, hj] at hev)

end Icmpkg
